import Mathlib

/-!
Verification of the data-ingestion core of `shed/datareader.py` (class
`Datareader`): header sniffing, line-wise csv loading with skip/limit,
record extraction (label, text, frog annotations, metadata) and the
preprocessing/filter step.

Modelling conventions:
* Python exceptions are modelled with `Except Err`; `ValueError`
  (from `list.index`) and `IndexError` (from `line[i]`) are distinguished
  because `_extract_row` catches only `ValueError`.
* A csv file is a list of lines, each a list of string fields.
* `csv.Sniffer().has_header` (external library, reads the first 200 bytes)
  is modelled by the boolean parameter `sniff`, constant per file.
* The injected decoder collaborator `self.backbone.decode` is modelled by a
  function parameter `decode : String → List (List String)`.
* The `Preprocessor` collaborator (`shed/processor.py`) supplies the
  transforms `label_convert` and `basic`; only its dispatch is part of the
  core, so the two transforms are function parameters of `preprocess`.
-/

namespace Shed

/-- Python exceptions relevant to the reader: `ValueError` (raised by
`list.index` on a missing element), `IndexError` (raised by `line[i]` out of
range), and the unspecified outcome of handing `None` to an external
transform collaborator. -/
inductive Err where
  | valueError : Err
  | indexError : Err
  | noneTransform : Err
deriving DecidableEq, Repr

/-- The pruned row built by `Datareader._extract_row`:
`[label_data, text_data, frog_data, meta_data]`.  Each slot is an `Option`
so that the Python `None` sentinel checked by `preprocess`
(`None not in row`) is representable. -/
structure Row where
  label : Option String
  text : Option String
  frogs : Option (List (List String))
  meta : Option (List String)
deriving DecidableEq, Repr

/-- Python `list.index(x)`: index of the first occurrence of `x`, raising
`ValueError` when `x` is absent. -/
def listIndex : List String → String → Except Err Nat
  | [], _ => Except.error Err.valueError
  | a :: t, x =>
    if a = x then Except.ok 0
    else
      match listIndex t x with
      | Except.ok i => Except.ok (i + 1)
      | Except.error e => Except.error e

/-- Python `line[i]`: the `i`-th element, raising `IndexError` out of range. -/
def pyGet (l : List String) (i : Nat) : Except Err String :=
  match l.get? i with
  | some v => Except.ok v
  | none => Except.error Err.indexError

/-- The fixed fallback header list assigned in `Datareader.__init__`
(`self.headers = "user_id age gender ... text frog".split()`). -/
def defaultHeaders : List String :=
  ["user_id", "age", "gender", "loc_country", "loc_region", "loc_city",
   "education", "pers_big5", "pers_mbti", "text", "frog"]

/-- The mutable reader state threaded through loading: `self.headers`,
`self.label` (a string or `None`) and `self.meta` (mutated in place by
`_extract_row` when it removes the `file` sentinel). -/
structure DState where
  headers : List String
  label : Option String
  meta : List String
deriving DecidableEq, Repr

/-- Reader state right after `__init__`: default headers, the configured
label column name (default `age`, possibly `None`) and the `meta` list. -/
def initState (label : Option String) (meta : List String) : DState :=
  { headers := defaultHeaders, label := label, meta := meta }

/-- `self.max_n = max_n+1 if max_n else None` from `__init__`
(the "offset" that is meant to absorb a header line). -/
def initMaxN (max_n : Option Nat) : Option Nat :=
  match max_n with
  | some n => if n = 0 then none else some (n + 1)
  | none => none

/-- `line[self.headers.index(name)]`: name-based field lookup against the
active header mapping. -/
def lookupField (headers line : List String) (name : String) : Except Err String :=
  match listIndex headers name with
  | Except.ok i => pyGet line i
  | Except.error e => Except.error e

/-- The metadata block of `_extract_row`: if `'file'` is in `self.meta` it is
removed *from the configuration list itself* and the filename is prepended;
then the values of the remaining named metadata fields are appended.
Returns `(meta_data, the new self.meta)`. -/
def buildMeta (headers meta line : List String) (filename : String) :
    Except Err (List String × List String) :=
  let startPair := if "file" ∈ meta then (meta.erase "file", [filename]) else (meta, [])
  match startPair.1.mapM (fun x => lookupField headers line x) with
  | Except.ok rest => Except.ok (startPair.2 ++ rest, startPair.1)
  | Except.error e => Except.error e

/-- The frog block of `_extract_row`: look for a `frog` column, else a
`frogs` column, decode its value with the backbone; the whole block is
wrapped in `try ... except ValueError: frog_data = []`, so only a
`ValueError` (missing column name) is recovered to an empty sequence. -/
def frogLookup (decode : String → List (List String)) (headers line : List String) :
    Except Err (List (List String)) :=
  let attempt : Except Err (List (List String)) :=
    if "frog" ∈ headers then
      match listIndex headers "frog" with
      | Except.ok h =>
        match pyGet line h with
        | Except.ok v => Except.ok (decode v)
        | Except.error e => Except.error e
      | Except.error e => Except.error e
    else
      match listIndex headers "frogs" with
      | Except.ok h =>
        match pyGet line h with
        | Except.ok v => Except.ok (decode v)
        | Except.error e => Except.error e
      | Except.error e => Except.error e
  match attempt with
  | Except.error Err.valueError => Except.ok []
  | other => other

/-- `Datareader._extract_row`: label lookup, text lookup, metadata block,
frog block, in source order; returns the pruned row and the state whose
`meta` reflects the in-place `remove('file')`. -/
def extractRow (decode : String → List (List String)) (st : DState)
    (line : List String) (filename : String) : Except Err (Row × DState) :=
  match (match st.label with
         | some lab => lookupField st.headers line lab
         | none => Except.error Err.valueError) with
  | Except.error e => Except.error e
  | Except.ok label_data =>
    match lookupField st.headers line "text" with
    | Except.error e => Except.error e
    | Except.ok text_data =>
      match buildMeta st.headers st.meta line filename with
      | Except.error e => Except.error e
      | Except.ok (meta_data, meta2) =>
        match frogLookup decode st.headers line with
        | Except.error e => Except.error e
        | Except.ok frog_data =>
          Except.ok ({ label := some label_data, text := some text_data,
                       frogs := some frog_data, meta := some meta_data },
                     { st with meta := meta2 })

/-- `Datareader._check_header`: returns `True` when the sniffing heuristic
(external `csv.Sniffer().has_header` over the first 200 bytes, modelled by
`sniff`) detects a header, and falls off the function end — i.e. returns
`None` — otherwise. -/
def check_header (sniff : Bool) : Option Bool :=
  if sniff then some true else none

/-- Python truthiness of the `_check_header` result (`True` or `None`). -/
def truthy : Option Bool → Bool
  | some b => b
  | none => false

/-- Python truthiness of `self.label` / `row[0]` (`None` and `""` are falsy). -/
def labelTruthy : Option String → Bool
  | some s => s != ""
  | none => false

/-- The header-adoption step of `_load_data_linewise`:
`self.headers = line; if not self.label: self.label = self.headers[1]`. -/
def adoptHeader (st : DState) (line : List String) : Except Err DState :=
  let st1 : DState := { st with headers := line }
  if labelTruthy st1.label then Except.ok st1
  else
    match pyGet line 1 with
    | Except.ok v => Except.ok { st1 with label := some v }
    | Except.error e => Except.error e

/-- `self.max_n and i >= self.max_n` (a stored `0` would be falsy). -/
def breakAt (maxN : Option Nat) (i : Nat) : Bool :=
  match maxN with
  | some m => if m = 0 then false else decide (m ≤ i)
  | none => false

/-- Worker for `Datareader._load_data_linewise` from line index `i`: skip
indices in `skip`; adopt line 0 as header when the sniffer says so; break
once `i` reaches the stored `max_n`; otherwise extract the row and yield it
when its label is truthy.  Returns the yielded rows and the final state. -/
def loadAux (decode : String → List (List String)) (sniff : Bool)
    (skip : List Nat) (maxN : Option Nat) (filename : String) :
    Nat → DState → List (List String) → Except Err (List Row × DState)
  | _, st, [] => Except.ok ([], st)
  | i, st, line :: rest =>
    if i ∈ skip then loadAux decode sniff skip maxN filename (i + 1) st rest
    else if truthy (check_header sniff) && (i == 0) then
      match adoptHeader st line with
      | Except.ok st1 => loadAux decode sniff skip maxN filename (i + 1) st1 rest
      | Except.error e => Except.error e
    else if breakAt maxN i then Except.ok ([], st)
    else
      match extractRow decode st line filename with
      | Except.error e => Except.error e
      | Except.ok (row, st1) =>
        match loadAux decode sniff skip maxN filename (i + 1) st1 rest with
        | Except.error e => Except.error e
        | Except.ok (rows, st2) =>
          if labelTruthy row.label then Except.ok (row :: rows, st2)
          else Except.ok (rows, st2)

/-- `Datareader._load_data_linewise` on a whole file (enumeration from 0). -/
def load_data_linewise (decode : String → List (List String)) (sniff : Bool)
    (skip : List Nat) (maxN : Option Nat) (filename : String)
    (st : DState) (lines : List (List String)) : Except Err (List Row × DState) :=
  loadAux decode sniff skip maxN filename 0 st lines

/-- The `proc` configuration value: `None`, one of the mode strings
`'label'`/`'text'`/`'both'`, or a caller-supplied row transform. -/
inductive ProcMode where
  | none : ProcMode
  | label : ProcMode
  | text : ProcMode
  | both : ProcMode
  | func : (Row → Row) → ProcMode

/-- The validity filter of `Datareader.preprocess`, line 193:
`if None not in row and len(row[0]) > 0 and len(row[2]) > 3: return row`
(Python `and` short-circuits, so the lengths are only taken once no slot is
`None`). -/
def rowFilter (row : Row) : Option Row :=
  match row.label, row.text, row.frogs, row.meta with
  | some l, some _, some fr, some _ =>
    if 0 < l.length ∧ 3 < fr.length then some row else none
  | _, _, _, _ => none

/-- The label block of `preprocess`:
`if self.proc == 'label' or self.proc == 'both': row[0] = label_convert(row[0])`.
Handing `None` to the external transform is an unspecified external call,
modelled as the error `Err.noneTransform`. -/
def labelBranch (label_convert : String → String) (proc : ProcMode)
    (row : Row) : Except Err Row :=
  match proc with
  | ProcMode.label | ProcMode.both =>
    match row.label with
    | some s => Except.ok { row with label := some (label_convert s) }
    | none => Except.error Err.noneTransform
  | _ => Except.ok row

/-- The text block of `preprocess`:
`if self.proc == 'text' or self.proc == 'both': row[1] = basic(row[0])` —
note the source reads `row[0]`, the label slot, not the text slot. -/
def textBranch (basic : String → String) (proc : ProcMode)
    (row : Row) : Except Err Row :=
  match proc with
  | ProcMode.text | ProcMode.both =>
    match row.label with
    | some s => Except.ok { row with text := some (basic s) }
    | none => Except.error Err.noneTransform
  | _ => Except.ok row

/-- The callable block of `preprocess`:
`if self.proc and not isinstance(self.proc, str): row = self.proc(row)`. -/
def funcBranch (proc : ProcMode) (row : Row) : Row :=
  match proc with
  | ProcMode.func f => f row
  | _ => row

/-- `Datareader.preprocess`: label block, text block, caller-supplied
callable, then the validity filter, in source order. -/
def preprocess (label_convert basic : String → String) (proc : ProcMode)
    (row : Row) : Except Err (Option Row) :=
  match labelBranch label_convert proc row with
  | Except.error e => Except.error e
  | Except.ok row1 =>
    match textBranch basic proc row1 with
    | Except.error e => Except.error e
    | Except.ok row2 => Except.ok (rowFilter (funcBranch proc row2))

/-- The per-file body of `Datareader.load`: each row produced by
`_load_data_linewise` is passed through `preprocess` and yielded when a row
(a truthy value) comes back. -/
def preprocessRows (label_convert basic : String → String) (proc : ProcMode) :
    List Row → Except Err (List Row)
  | [] => Except.ok []
  | r :: rs =>
    match preprocess label_convert basic proc r with
    | Except.error e => Except.error e
    | Except.ok p =>
      match preprocessRows label_convert basic proc rs with
      | Except.error e => Except.error e
      | Except.ok rest =>
        match p with
        | some row => Except.ok (row :: rest)
        | none => Except.ok rest

/-- One input file for `Datareader.load`: its path, the (constant) result of
the header sniff on its contents, and its parsed csv lines. -/
structure FileData where
  name : String
  sniff : Bool
  lines : List (List String)

/-- `Datareader.load`: iterate the file list in order, run
`_load_data_linewise` then `preprocess` per file, concatenating the yielded
rows; the reader state (headers, label, meta) carries over between files. -/
def load (label_convert basic : String → String) (proc : ProcMode)
    (decode : String → List (List String)) (skip : List Nat)
    (maxN : Option Nat) : List FileData → DState → Except Err (List Row × DState)
  | [], st => Except.ok ([], st)
  | f :: fs, st =>
    match load_data_linewise decode f.sniff skip maxN f.name st f.lines with
    | Except.error e => Except.error e
    | Except.ok (rows, st1) =>
      match preprocessRows label_convert basic proc rows with
      | Except.error e => Except.error e
      | Except.ok prows =>
        match load label_convert basic proc decode skip maxN fs st1 with
        | Except.error e => Except.error e
        | Except.ok (more, st2) => Except.ok (prows ++ more, st2)

/-- Modelled from the spec: the `Preprocessor.basic` text-normalization
collaborator (defined in `shed/processor.py`, which is not part of the
sources here) — "minimally: lowercasing and generic cleanup" — modelled as
lowercasing. -/
def basicModel (s : String) : String := String.mk (s.data.map Char.toLower)

/-- A decoded frog sequence with four annotation triples (passes the `>3`
filter). -/
def frogs4 : List (List String) :=
  [["a", "a", "T"], ["b", "b", "T"], ["c", "c", "T"], ["d", "d", "T"]]

/-- A backbone decoder stub returning four annotation triples for any cell. -/
def decode0 : String → List (List String) := fun _ => frogs4

/-- A reader state with a small adopted header mapping and no metadata spec. -/
def stC1 : DState := { headers := ["age", "text", "frogs"], label := some "age", meta := [] }

/-- Three headerless data lines for the `max_n` experiment. -/
def linesC1 : List (List String) :=
  [["a", "t", "x"], ["b", "u", "y"], ["c", "v", "z"]]

/-- A file whose first line is a header (`sniff = true`) and two data lines. -/
def fileC2 : FileData :=
  { name := "f.csv", sniff := true,
    lines := [["age", "text", "frogs"], ["a", "t", "x"], ["b", "u", "y"]] }

/-- The first row `load` yields from `fileC2` with `meta = ["file"]`. -/
def rowC2a : Row :=
  { label := some "a", text := some "t", frogs := some frogs4, meta := some ["f.csv"] }

/-- The second row `load` yields from `fileC2` with `meta = ["file"]`. -/
def rowC2b : Row :=
  { label := some "b", text := some "u", frogs := some frogs4, meta := some [] }

/-- A valid row whose label (`"A"`) and text (`"b"`) differ, to observe which
field the text transform is applied to. -/
def rowC3 : Row :=
  { label := some "A", text := some "b", frogs := some frogs4, meta := some [] }

/-- An otherwise-valid row with exactly three decoded annotation entries. -/
def rowEntries3 : Row :=
  { label := some "x", text := some "t",
    frogs := some [["a", "a", "T"], ["b", "b", "T"], ["c", "c", "T"]], meta := some [] }

/-- An otherwise-valid row with four decoded annotation entries. -/
def rowEntries4 : Row :=
  { label := some "x", text := some "t", frogs := some frogs4, meta := some [] }

/-- A reader state whose header mapping contains neither the configured label
column nor `text`. -/
def stC6 : DState := { headers := ["aaa", "bbb"], label := some "age", meta := [] }

/-- A reader state whose header mapping has label and `text` columns but
neither `frog` nor `frogs`. -/
def stC7 : DState := { headers := ["age", "text"], label := some "age", meta := [] }

/-- Input row for the frame-property witness. -/
def rowC10 : Row :=
  { label := some "x", text := some "y", frogs := some frogs4, meta := some [] }

/-- Output of `preprocess` in mode `text` on `rowC10` (text overwritten with
the transform of the label slot). -/
def rowC10out : Row := { rowC10 with text := some "x" }

/-! ## Helper lemmas -/

/-- `list.index` raises `ValueError` when the element is absent. -/
theorem listIndex_not_mem (l : List String) (x : String) (h : x ∉ l) :
    listIndex l x = Except.error Err.valueError := by
  induction l with
  | nil => rfl
  | cons a t ih =>
    have ha : ¬ a = x := fun hh => h (hh ▸ List.mem_cons_self a t)
    have ht : x ∉ t := fun hm => h (List.mem_cons_of_mem a hm)
    simp [listIndex, ha, ih ht]

/-- A name-based field lookup on a mapping lacking the name raises
`ValueError`. -/
theorem lookupField_not_mem (headers line : List String) (name : String)
    (h : name ∉ headers) :
    lookupField headers line name = Except.error Err.valueError := by
  unfold lookupField
  rw [listIndex_not_mem _ _ h]

/-- The validity filter never rewrites the row it returns. -/
theorem rowFilter_some (row r : Row) (h : rowFilter row = some r) : r = row := by
  unfold rowFilter at h
  split at h
  · split at h
    · injection h with h
      exact h.symm
    · cases h
  · cases h

/-- When neither `frog` nor `frogs` is a known column, the annotation lookup
fails with the `ValueError` that the extractor catches, so the annotations
default to the empty sequence. -/
theorem frogLookup_missing (decode : String → List (List String))
    (headers line : List String) (hf : "frog" ∉ headers) (hfs : "frogs" ∉ headers) :
    frogLookup decode headers line = Except.ok [] := by
  unfold frogLookup
  rw [if_neg hf, listIndex_not_mem _ _ hfs]

/-- Record extraction never changes the active header mapping or the label
configuration (it only mutates `self.meta`). -/
theorem extractRow_state (decode : String → List (List String)) (st : DState)
    (line : List String) (fn : String) (row : Row) (st' : DState)
    (h : extractRow decode st line fn = Except.ok (row, st')) :
    st'.headers = st.headers ∧ st'.label = st.label := by
  unfold extractRow at h
  split at h
  · cases h
  · split at h
    · cases h
    · split at h
      · cases h
      · split at h
        · cases h
        · simp only [Except.ok.injEq, Prod.mk.injEq] at h
          rw [← h.2]
          exact ⟨rfl, rfl⟩

/-! ## Claim theorems -/

/-- C9 counterexample: at a file whose sniff heuristic reports no header,
`_check_header` does not return the boolean `False` the claim requires (it
falls off the end of the function, returning `None`), while the detected
case does return `True`. -/
theorem c9_counterexample :
    check_header false ≠ some false ∧ check_header true = some true :=
  ⟨by decide, rfl⟩

/-- C9 amended: the Header Sniffer's check returns `True` when the sniff
heuristic detects a header in the bounded prefix and `None` (a falsy
non-boolean, equivalent to `False` in the boolean contexts where it is used)
otherwise; it does not raise in the happy path (the model is total). -/
theorem c9_amended : check_header true = some true ∧ check_header false = none :=
  ⟨rfl, rfl⟩

/-- C3 failing-input evaluation: in mode `text`, for every text transform
`basic`, `preprocess` stores `basic` applied to the *label* slot `row[0]`
(here `"A"`) into the text slot — not `basic` applied to the text slot
(`"b"`) as the claim states.  Under the spec's lowercasing transform the
code therefore produces text `"a"` where the claim predicts `"b"`. -/
theorem c3_code_eval (basic : String → String) :
    preprocess id basic ProcMode.text rowC3 =
      Except.ok (some { rowC3 with text := some (basic "A") }) ∧
    basicModel "A" = "a" ∧ basicModel "b" = "b" ∧ ("a" : String) ≠ "b" :=
  ⟨rfl, by decide, by decide, by decide⟩

/-- C4: with no transform configured, `preprocess` returns its input row
exactly when no slot is the `None` sentinel, the label is non-empty and the
decoded annotation sequence has strictly more than 3 entries; concretely, an
otherwise-valid row with exactly 3 entries is dropped and one with 4 is
kept. -/
theorem c4_validity_filter :
    (∀ (lc tb : String → String) (row : Row),
        preprocess lc tb ProcMode.none row = Except.ok (some row) ↔
          (row.label ≠ none ∧ row.text ≠ none ∧ row.frogs ≠ none ∧ row.meta ≠ none ∧
           0 < (row.label.getD "").length ∧ 3 < ((row.frogs.getD []).length))) ∧
    preprocess id id ProcMode.none rowEntries3 = Except.ok none ∧
    preprocess id id ProcMode.none rowEntries4 = Except.ok (some rowEntries4) := by
  refine ⟨?_, rfl, rfl⟩
  intro lc tb row
  obtain ⟨lab, tx, fr, mt⟩ := row
  cases lab <;> cases tx <;> cases fr <;> cases mt <;>
    simp only [preprocess, labelBranch, textBranch, funcBranch, rowFilter, Except.ok.injEq,
      Option.getD_some, Option.getD_none, Option.some.injEq, ne_eq, not_true_eq_false,
      not_false_iff, reduceCtorEq] <;>
    try simp

/-- C8: with processing mode `None`, no transform branch fires, so whenever
the validity filter accepts the row, `preprocess` returns it structurally
unchanged. -/
theorem c8_none_identity (label_convert basic : String → String) (row : Row)
    (h : rowFilter row = some row) :
    preprocess label_convert basic ProcMode.none row = Except.ok (some row) := by
  simp [preprocess, labelBranch, textBranch, funcBranch, h]

/-- Witness for C8 at the concrete accepted row `rowEntries4`. -/
theorem c8_none_identity_witness :
    rowFilter rowEntries4 = some rowEntries4 ∧
    preprocess id id ProcMode.none rowEntries4 = Except.ok (some rowEntries4) :=
  ⟨rfl, c8_none_identity id id rowEntries4 rfl⟩

/-- C10: the built-in modes (`None`, `label`, `text`, `both`) only ever
rewrite the label and text slots — any row `preprocess` returns has the
annotation and metadata slots of the input row. -/
theorem c10_frame (label_convert basic : String → String) (mode : ProcMode)
    (row r : Row)
    (hm : mode = ProcMode.none ∨ mode = ProcMode.label ∨ mode = ProcMode.text ∨
          mode = ProcMode.both)
    (h : preprocess label_convert basic mode row = Except.ok (some r)) :
    r.frogs = row.frogs ∧ r.meta = row.meta := by
  rcases hm with rfl | rfl | rfl | rfl
  · simp only [preprocess, labelBranch, textBranch, funcBranch, Except.ok.injEq] at h
    rw [rowFilter_some _ _ h]
    exact ⟨rfl, rfl⟩
  · cases hl : row.label with
    | none => simp [preprocess, labelBranch, textBranch, funcBranch, hl] at h
    | some s =>
      simp only [preprocess, labelBranch, textBranch, funcBranch, hl, Except.ok.injEq] at h
      rw [rowFilter_some _ _ h]
      exact ⟨rfl, rfl⟩
  · cases hl : row.label with
    | none => simp [preprocess, labelBranch, textBranch, funcBranch, hl] at h
    | some s =>
      simp only [preprocess, labelBranch, textBranch, funcBranch, hl, Except.ok.injEq] at h
      rw [rowFilter_some _ _ h]
      exact ⟨rfl, rfl⟩
  · cases hl : row.label with
    | none => simp [preprocess, labelBranch, textBranch, funcBranch, hl] at h
    | some s =>
      simp only [preprocess, labelBranch, textBranch, funcBranch, hl, Except.ok.injEq] at h
      rw [rowFilter_some _ _ h]
      exact ⟨rfl, rfl⟩

/-- Witness for C10 at mode `text` on the concrete row `rowC10`. -/
theorem c10_frame_witness :
    rowC10out.frogs = rowC10.frogs ∧ rowC10out.meta = rowC10.meta :=
  c10_frame id id ProcMode.text rowC10 rowC10out
    (Or.inr (Or.inr (Or.inl rfl))) rfl

/-- C7: when the active header mapping has neither a `frog` nor a `frogs`
column (and the label/text/metadata lookups succeed), `_extract_row` does
not raise — the `ValueError` from the annotation lookup is caught and the
row's annotation slot defaults to the empty sequence. -/
theorem c7_frog_fallback (decode : String → List (List String)) (st : DState)
    (line : List String) (fn lab label_data text_data : String)
    (meta_data meta2 : List String)
    (hf : "frog" ∉ st.headers) (hfs : "frogs" ∉ st.headers)
    (hlab : st.label = some lab)
    (hl : lookupField st.headers line lab = Except.ok label_data)
    (ht : lookupField st.headers line "text" = Except.ok text_data)
    (hm : buildMeta st.headers st.meta line fn = Except.ok (meta_data, meta2)) :
    extractRow decode st line fn =
      Except.ok ({ label := some label_data, text := some text_data,
                   frogs := some [], meta := some meta_data },
                 { st with meta := meta2 }) := by
  unfold extractRow
  rw [hlab]
  simp only [hl, ht, hm, frogLookup_missing decode st.headers line hf hfs]

/-- Witness for C7 at a concrete two-column mapping without `frog`/`frogs`. -/
theorem c7_frog_fallback_witness :
    extractRow decode0 stC7 ["a", "t"] "f" =
      Except.ok ({ label := some "a", text := some "t",
                   frogs := some [], meta := some [] },
                 { stC7 with meta := [] }) :=
  c7_frog_fallback decode0 stC7 ["a", "t"] "f" "age" "a" "t" [] []
    (by decide) (by decide) rfl rfl rfl rfl

/-- C2 failing-input evaluation: constructed with `meta = ["file"]`, on a
headed file with two data rows, `load` yields a first row whose metadata is
`[filepath]` but a second row whose metadata is empty — `_extract_row`
removes the `file` sentinel from `self.meta` in place, so every row after
the first lacks the file path, contradicting the claim that every yielded
row's metadata starts with it. -/
theorem c2_code_eval :
    load id id ProcMode.none decode0 [] Option.none [fileC2]
        (initState (some "age") ["file"]) =
      Except.ok ([rowC2a, rowC2b],
        { headers := ["age", "text", "frogs"], label := some "age", meta := [] }) ∧
    rowC2a.meta = some ["f.csv"] ∧ rowC2b.meta = some [] ∧
    rowC2b.meta ≠ some ["f.csv"] :=
  ⟨rfl, rfl, rfl, by decide⟩

/-- C1 counterexample: a headerless file with three data lines, empty `skip`
and `max_n = 1` yields two rows — more than the `N = 1` bound the claim
states (the internal `max_n+1` offset is applied even though no header line
absorbs it). -/
theorem c1_counterexample :
    Except.map (fun p => p.1.length)
        (load_data_linewise decode0 false [] (initMaxN (some 1)) "f" stC1 linesC1) =
      Except.ok 2 ∧ ¬ (2 ≤ 1) :=
  ⟨rfl, by decide⟩

/-- Members of `List.range' s n` (step 1) are at least `s`. -/
theorem mem_range'_ge {s n j : Nat} (h : j ∈ List.range' s n) : s ≤ j := by
  rw [List.mem_range'] at h
  obtain ⟨i, _, rfl⟩ := h
  omega

/-- A filter that keeps only indices below `m` selects at most `m - s`
elements out of `List.range' s n`. -/
theorem filter_range'_count_le (p : Nat → Bool) (m : Nat) :
    ∀ (n s : Nat),
      ((List.range' s n).filter (fun j => p j && decide (j < m))).length ≤ m - s := by
  intro n
  induction n with
  | zero => intro s; simp
  | succ k ih =>
    intro s
    rw [List.range'_succ, List.filter_cons]
    by_cases hp : (p s && decide (s < m)) = true
    · rw [if_pos hp]
      have hs : s < m := of_decide_eq_true (Bool.and_elim_right hp)
      have hr := ih (s + 1)
      simp only [List.length_cons]
      omega
    · rw [if_neg hp]
      have hr := ih (s + 1)
      omega

/-- Line-wise loading of a headerless file whose rows all extract cleanly
(state unchanged, truthy label) succeeds and yields exactly one row per line
index that is not skipped and lies below the stored `max_n` bound `m`. -/
theorem loadAux_count (decode : String → List (List String)) (skip : List Nat)
    (m : Nat) (fn : String) (hm : 0 < m) :
    ∀ (lines : List (List String)) (i : Nat) (st : DState),
      (∀ line ∈ lines, ∃ row, extractRow decode st line fn = Except.ok (row, st) ∧
          labelTruthy row.label = true) →
      ∃ rows, loadAux decode false skip (some m) fn i st lines = Except.ok (rows, st) ∧
        rows.length = ((List.range' i lines.length).filter
          (fun j => decide (j ∉ skip) && decide (j < m))).length := by
  intro lines
  induction lines with
  | nil => intro i st _; exact ⟨[], rfl, rfl⟩
  | cons line rest ih =>
    intro i st hcl
    have hclr : ∀ l ∈ rest, ∃ row, extractRow decode st l fn = Except.ok (row, st) ∧
        labelTruthy row.label = true :=
      fun l hl => hcl l (List.mem_cons_of_mem _ hl)
    rw [List.length_cons, List.range'_succ]
    by_cases hsk : i ∈ skip
    · obtain ⟨rows, h1, h2⟩ := ih (i + 1) st hclr
      refine ⟨rows, ?_, ?_⟩
      · simp [loadAux, hsk, h1]
      · rw [List.filter_cons_of_neg (by simp [hsk])]
        exact h2
    · by_cases hbr : m ≤ i
      · refine ⟨[], ?_, ?_⟩
        · simp [loadAux, hsk, truthy, check_header, breakAt,
            Nat.pos_iff_ne_zero.mp hm, hbr]
        · have hnil : (List.filter (fun j => decide (j ∉ skip) && decide (j < m))
              (i :: List.range' (i + 1) rest.length)) = [] := by
            rw [List.filter_eq_nil_iff]
            intro a ha
            have hge : i ≤ a := by
              rcases List.mem_cons.1 ha with rfl | hmm
              · exact Nat.le_refl _
              · exact Nat.le_of_lt (Nat.lt_of_lt_of_le (Nat.lt_succ_self i)
                  (mem_range'_ge hmm))
            intro hcon
            rw [Bool.and_eq_true, decide_eq_true_eq, decide_eq_true_eq] at hcon
            exact absurd hcon.2 (by omega)
          rw [hnil]
          rfl
      · obtain ⟨row, hex, hlt⟩ := hcl line (List.mem_cons_self _ _)
        obtain ⟨rows, h1, h2⟩ := ih (i + 1) st hclr
        refine ⟨row :: rows, ?_, ?_⟩
        · simp [loadAux, hsk, truthy, check_header, breakAt,
            Nat.pos_iff_ne_zero.mp hm, hbr, hex, h1, hlt]
        · rw [List.filter_cons_of_pos (by simp [hsk]; omega)]
          simp [h2]

/-- C1 amended: for a headerless file whose rows all extract cleanly with
truthy labels, setting `max_n = N` (N positive) yields one row per line
index that is not in `skip` and is smaller than `N + 1` — i.e. at most
`N + 1` rows, not `N`: the internal `max_n+1` offset meant to absorb a
header line is applied even when no header is present. -/
theorem c1_amended (decode : String → List (List String)) (skip : List Nat)
    (N : Nat) (fn : String) (st : DState) (lines : List (List String))
    (hN : 0 < N)
    (hcl : ∀ line ∈ lines, ∃ row, extractRow decode st line fn = Except.ok (row, st) ∧
        labelTruthy row.label = true) :
    ∃ rows,
      load_data_linewise decode false skip (initMaxN (some N)) fn st lines =
        Except.ok (rows, st) ∧
      rows.length = ((List.range lines.length).filter
        (fun j => decide (j ∉ skip) && decide (j < N + 1))).length ∧
      rows.length ≤ N + 1 := by
  have hinit : initMaxN (some N) = some (N + 1) := by
    simp [initMaxN, Nat.pos_iff_ne_zero.mp hN]
  obtain ⟨rows, h1, h2⟩ :=
    loadAux_count decode skip (N + 1) fn (by omega) lines 0 st hcl
  refine ⟨rows, ?_, ?_, ?_⟩
  · rw [load_data_linewise, hinit]
    exact h1
  · rw [List.range_eq_range']
    exact h2
  · have hb := filter_range'_count_le (fun j => decide (j ∉ skip)) (N + 1)
      lines.length 0
    omega

/-- Witness for C1 amended at the three-line headerless fixture with
`max_n = 1`. -/
theorem c1_amended_witness :
    0 < 1 ∧ ∃ rows,
      load_data_linewise decode0 false [] (initMaxN (some 1)) "f" stC1 linesC1 =
        Except.ok (rows, stC1) ∧
      rows.length = ((List.range linesC1.length).filter
        (fun j => decide (j ∉ ([] : List Nat)) && decide (j < 1 + 1))).length ∧
      rows.length ≤ 1 + 1 := by
  refine ⟨by decide, c1_amended decode0 [] 1 "f" stC1 linesC1 (by decide) ?_⟩
  intro line hl
  simp only [linesC1, List.mem_cons, List.not_mem_nil, or_false] at hl
  rcases hl with rfl | rfl | rfl <;> exact ⟨_, rfl, rfl⟩

/-- For start indices ≥ 1 the header branch never fires, and extraction
never touches `headers`, so the header mapping survives the rest of the
file unchanged. -/
theorem loadAux_headers (decode : String → List (List String)) (sniff : Bool)
    (skip : List Nat) (maxN : Option Nat) (fn : String) :
    ∀ (lines : List (List String)) (i : Nat) (st : DState) (rows : List Row)
      (st' : DState), 1 ≤ i →
      loadAux decode sniff skip maxN fn i st lines = Except.ok (rows, st') →
      st'.headers = st.headers := by
  intro lines
  induction lines with
  | nil =>
    intro i st rows st' _ h
    simp only [loadAux, Except.ok.injEq, Prod.mk.injEq] at h
    rw [← h.2]
  | cons line rest ih =>
    intro i st rows st' hi h
    rw [loadAux] at h
    split at h
    · exact ih (i + 1) st rows st' (by omega) h
    · split at h
      · next hguard =>
        have h0 : (i == 0) = true := Bool.and_elim_right hguard
        have : i = 0 := by simpa using h0
        omega
      · split at h
        · simp only [Except.ok.injEq, Prod.mk.injEq] at h
          rw [← h.2]
        · split at h
          · cases h
          · next row st1 hex =>
            split at h
            · cases h
            · next rows2 st2 hrec =>
              have hst1 := (extractRow_state decode st line fn row st1 hex).1
              have hst2 := ih (i + 1) st1 rows2 st2 (by omega) hrec
              split at h <;>
                simp only [Except.ok.injEq, Prod.mk.injEq] at h <;>
                rw [← h.2] <;> rw [hst2, hst1]

/-- C5: when the sniffer reports a header and line 0 is not skipped,
`_load_data_linewise` adopts the first row as the header mapping (defaulting
the label column to its second entry when none was configured), never
yields that first row (the rest of the stream is exactly the processing of
the remaining lines from index 1) and keeps the adopted mapping to the end
of the file. -/
theorem c5_header_adoption (decode : String → List (List String))
    (skip : List Nat) (maxN : Option Nat) (fn : String) (st : DState)
    (l : List String) (rest : List (List String)) (v : String)
    (h0 : 0 ∉ skip) (hv : pyGet l 1 = Except.ok v) :
    ∃ st1, adoptHeader st l = Except.ok st1 ∧ st1.headers = l ∧
      (st.label = Option.none → st1.label = some v) ∧
      load_data_linewise decode true skip maxN fn st (l :: rest) =
        loadAux decode true skip maxN fn 1 st1 rest ∧
      (∀ rows st2, loadAux decode true skip maxN fn 1 st1 rest =
          Except.ok (rows, st2) → st2.headers = l) := by
  by_cases hl : labelTruthy st.label = true
  · refine ⟨{ st with headers := l }, ?_, rfl, ?_, ?_, ?_⟩
    · simp [adoptHeader, hl]
    · intro hnone
      rw [hnone] at hl
      simp [labelTruthy] at hl
    · simp [load_data_linewise, loadAux, h0, truthy, check_header, adoptHeader, hl]
    · intro rows st2 hload
      exact loadAux_headers decode true skip maxN fn rest 1 _ rows st2
        (Nat.le_refl 1) hload
  · have hl' : labelTruthy st.label = false := by
      cases hb : labelTruthy st.label
      · rfl
      · exact absurd hb hl
    refine ⟨{ headers := l, label := some v, meta := st.meta }, ?_, rfl,
      fun _ => rfl, ?_, ?_⟩
    · simp [adoptHeader, hl', hv]
    · simp [load_data_linewise, loadAux, h0, truthy, check_header, adoptHeader,
        hl', hv]
    · intro rows st2 hload
      exact loadAux_headers decode true skip maxN fn rest 1 _ rows st2
        (Nat.le_refl 1) hload

/-- Witness for C5: a reader with `label = None` adopting a four-column
header whose second entry is `age`. -/
theorem c5_header_adoption_witness :
    ∃ st1, adoptHeader (initState Option.none []) ["id", "age", "text", "frogs"] =
        Except.ok st1 ∧
      st1.headers = ["id", "age", "text", "frogs"] ∧
      ((initState Option.none []).label = Option.none → st1.label = some "age") ∧
      load_data_linewise decode0 true [] Option.none "f" (initState Option.none [])
          [["id", "age", "text", "frogs"]] =
        loadAux decode0 true [] Option.none "f" 1 st1 [] ∧
      (∀ rows st2, loadAux decode0 true [] Option.none "f" 1 st1 [] =
          Except.ok (rows, st2) → st2.headers = ["id", "age", "text", "frogs"]) :=
  c5_header_adoption decode0 [] Option.none "f" (initState Option.none [])
    ["id", "age", "text", "frogs"] [] "age" (by decide) rfl

/-- C6: when the active header mapping lacks the configured label column, or
lacks the `text` column, `_extract_row` raises (a `ValueError`/`IndexError`
never caught on this path) and `_load_data_linewise` propagates it,
aborting the file. -/
theorem c6_missing_column (decode : String → List (List String)) (st : DState)
    (line : List String) (fn : String) (rest : List (List String))
    (h : (∃ lab, st.label = some lab ∧ lab ∉ st.headers) ∨ "text" ∉ st.headers) :
    ∃ e, extractRow decode st line fn = Except.error e ∧
      load_data_linewise decode false [] Option.none fn st (line :: rest) =
        Except.error e := by
  have hex : ∃ e, extractRow decode st line fn = Except.error e := by
    rcases h with ⟨lab, hla, hmem⟩ | htext
    · refine ⟨Err.valueError, ?_⟩
      unfold extractRow
      rw [hla]
      simp only [lookupField_not_mem st.headers line lab hmem]
    · cases hfirst : (match st.label with
          | some lab => lookupField st.headers line lab
          | none => Except.error Err.valueError) with
      | error e =>
        refine ⟨e, ?_⟩
        unfold extractRow
        rw [hfirst]
      | ok label_data =>
        refine ⟨Err.valueError, ?_⟩
        unfold extractRow
        rw [hfirst]
        simp only [lookupField_not_mem st.headers line "text" htext]
  obtain ⟨e, he⟩ := hex
  refine ⟨e, he, ?_⟩
  simp [load_data_linewise, loadAux, truthy, check_header, breakAt, he]

/-- Witness for C6 at a mapping containing neither the label column `age`
nor `text`. -/
theorem c6_missing_column_witness :
    ∃ e, extractRow decode0 stC6 ["x", "y"] "f" = Except.error e ∧
      load_data_linewise decode0 false [] Option.none "f" stC6 [["x", "y"]] =
        Except.error e :=
  c6_missing_column decode0 stC6 ["x", "y"] "f" []
    (Or.inl ⟨"age", rfl, by decide⟩)

end Shed
